import Mathlib

/-!
Verification of the permission reconciliation engine of DBAUTH_utils
(`src/ComparePermissions.py`, with the near-duplicate variants
`ComparePermissionsDocker.py` and `ComparePermissions_cloud.py`).

Shallow embedding conventions:
* A pandas DataFrame of permissions is a `List PermissionRecord`; the
  `PERMISSION` table is a `List StoreRecord`.
* A missing (NaN) cell is `Option.none`; `astype(str).replace("nan", "-")`
  is `coerceNan`.
* The process-wide `permission_cache` dict plus the database form `SysState`.
* Store-facing side effects are recorded as an event trace (`Ev`), so that
  "no write", "no fetch" and "cache invalidated n times" are statements
  about the trace of a run.
* Row order of `pd.merge(..., how="outer")` is abstracted: the embedding
  lists matched pairs in left order followed by the right-only rows, while
  pandas sorts the outer join by key.  No verified property depends on the
  order of the comparison rows.
-/

/-- One row of a fetched permission snapshot (columns EXT_ID, NAME, ACTION
of the SELECT in `fetch_permissions`). -/
structure PermissionRecord where
  ext_id : String
  name : String
  action : String
  deriving DecidableEq, Repr

/-- One row of the PERMISSION table (columns EXT_ID, CLASS, NAME, ACTION). -/
structure StoreRecord where
  ext_id : String
  class_name : String
  name : String
  action : String
  deriving DecidableEq, Repr

/-- The mutable process state: the PERMISSION table and the in-memory
`permission_cache` mapping a domain key to a cached snapshot. -/
structure SysState where
  db : List StoreRecord
  cache : List (List String × List PermissionRecord)
  deriving DecidableEq, Repr

/-- Store-facing events of a run: the DOMAIN listing of
`fetch_permission_domains`, the PERMISSION query of `fetch_permissions`
on a cache miss, the UPDATE/INSERT of `update_or_insert_permission`, and
a `permission_cache.clear()`. -/
inductive Ev where
  | fetchDomains : Ev
  | queryPerms : List String → Ev
  | updateRow : String → String → String → Ev
  | insertRow : String → String → String → Ev
  | clearCache : Ev
  deriving DecidableEq, Repr

/-- Models Python `str.lower()` for the identifiers used by the app. -/
def py_lower (s : String) : String := String.mk (s.data.map Char.toLower)

/-- ASCII whitespace, the relevant fragment of Python `str.strip()`. -/
def isSpaceChar (c : Char) : Bool := c == ' ' || c == '\t' || c == '\n' || c == '\r'

/-- Models Python `str.strip()`. -/
def py_strip (s : String) : String :=
  String.mk (((s.data.dropWhile isSpaceChar).reverse.dropWhile isSpaceChar).reverse)

/-- Lexicographic code-point comparison of character lists, the order
Python `sorted` uses on strings. -/
def charListLe : List Char → List Char → Bool
  | [], _ => true
  | _ :: _, [] => false
  | c :: cs, d :: ds =>
    if c < d then true else if d < c then false else charListLe cs ds

/-- Python string comparison for `sorted(domains)`. -/
def strLe (a b : String) : Bool := charListLe a.data b.data

/-- The cache key of `fetch_permissions`:
`domains_key = tuple(sorted(domains))` (ComparePermissions.py line 43).
The list is sorted but duplicates are kept. -/
def cacheKey (domains : List String) : List String :=
  List.insertionSort (fun a b => strLe a b = true) domains

/-- The SELECT of `fetch_permissions`:
`SELECT EXT_ID, NAME, ACTION FROM PERMISSION WHERE EXT_ID IN (domains)`. -/
def query_permissions (db : List StoreRecord) (domains : List String) :
    List PermissionRecord :=
  (db.filter fun r => domains.contains r.ext_id).map fun r =>
    { ext_id := r.ext_id, name := r.name, action := r.action }

/-- `fetch_permissions` (ComparePermissions.py lines 36-64): return the
cached snapshot when the key is present, otherwise query the store and
populate the cache.  The third component is the store-event trace. -/
def fetch_permissions (st : SysState) (domains : List String) :
    List PermissionRecord × SysState × List Ev :=
  let key := cacheKey domains
  match st.cache.lookup key with
  | some df => (df, st, [])
  | none =>
    let df := query_permissions st.db domains
    (df, { st with cache := (key, df) :: st.cache }, [Ev.queryPerms domains])

/-- The WHERE clause `EXT_ID = ? AND NAME = ?` shared by the COUNT check
and the UPDATE of `update_or_insert_permission`. -/
def upsertMatch (ext_id name : String) (r : StoreRecord) : Bool :=
  r.ext_id == ext_id && r.name == name

/-- The SQL `UPDATE PERMISSION SET ACTION = ? WHERE EXT_ID = ? AND NAME = ?`
applied to one stored row. -/
def upsertSet (ext_id name action : String) (r : StoreRecord) : StoreRecord :=
  if upsertMatch ext_id name r then { r with action := action } else r

/-- `update_or_insert_permission` (ComparePermissions.py lines 66-89):
check-then-update-or-insert on key (EXT_ID, NAME), then
`permission_cache.clear()`.  Returns the new state, the user message and
the event trace of the call. -/
def update_or_insert_permission (st : SysState) (ext_id name action : String) :
    SysState × String × List Ev :=
  let hit := st.db.any (upsertMatch ext_id name)
  if hit then
    ({ db := st.db.map (upsertSet ext_id name action),
       cache := [] },
     "Aggiornato: " ++ name ++ " in " ++ ext_id ++ " con ACTION = " ++ action,
     [Ev.updateRow ext_id name action, Ev.clearCache])
  else
    ({ db := st.db ++ [{ ext_id := ext_id,
                         class_name := "ch.eri.core.security.TaskPermission",
                         name := name, action := action }],
       cache := [] },
     "Inserito: " ++ name ++ " in " ++ ext_id ++ " con ACTION = " ++ action,
     [Ev.insertRow ext_id name action, Ev.clearCache])

/-- The `astype(str).replace("nan", "-")` coercion applied to the
ACTION_left / ACTION_right columns: a missing value prints as `"nan"` and
is then replaced by the sentinel, and a stored value equal to the string
`"nan"` is replaced as well. -/
def coerceNan (a : Option String) : String :=
  match a with
  | none => "-"
  | some s => if s == "nan" then "-" else s

/-- `classify_status` (ComparePermissions.py lines 131-139). -/
def classify_status (action_left action_right : String) : String :=
  if action_left == action_right then "Comuni"
  else if action_left == "-" then "Unico a Destra"
  else if action_right == "-" then "Unico a Sinistra"
  else "Differenti"

/-- The truthiness-and-token test of the app: Python
`str(x).strip().lower() in ["", "nan", "-"]`. -/
def sentinelToken (e : String) : Bool :=
  let t := py_lower (py_strip e)
  t == "" || t == "nan" || t == "-"

/-- `delete_option` (ComparePermissions.py lines 148-152):
`ext_id_right and (str(ext_id_right).strip().lower() not in ["", "nan", "-"])`.
A NaN cell is truthy in Python but prints as "nan", so it falls to "-";
an empty string is falsy. -/
def delete_option (ext_id_right : Option String) : String :=
  match ext_id_right with
  | none => "-"
  | some e =>
    if e == "" then "-"
    else if sentinelToken e then "-"
    else "Elimina"

/-- One row of the comparison DataFrame built by `compare_permissions`
(columns EXT_ID_left, NAME, ACTION_left, EXT_ID_right, ACTION_right,
Status, Action, Delete). -/
structure ComparisonRow where
  ext_id_left : Option String
  name : String
  action_left : String
  ext_id_right : Option String
  action_right : String
  status : String
  action : String
  delete : String
  deriving DecidableEq, Repr

/-- The full outer join on NAME performed by
`pd.merge(left, right, on="NAME", how="outer")`: each left row is paired
with every right row of the same NAME (or with a missing right side when
there is none), and right rows whose NAME has no left match are appended
with a missing left side. -/
def mergeOuter (left right : List PermissionRecord) :
    List (Option PermissionRecord × Option PermissionRecord) :=
  (left.flatMap fun l =>
    let ms := right.filter fun r => r.name == l.name
    if ms.isEmpty then [(some l, none)] else ms.map fun r => (some l, some r))
  ++ ((right.filter fun r => left.all fun l => !(l.name == r.name)).map
      fun r => (none, some r))

/-- Builds one comparison row from a joined pair, applying the nan
coercion, `classify_status`, the Action column rule
(`"Aggiorna" if Status not in ["Comuni", "Unico a Destra"] else "-"`)
and `delete_option`. -/
def buildRow (lo ro : Option PermissionRecord) : ComparisonRow :=
  let al := coerceNan (lo.map PermissionRecord.action)
  let ar := coerceNan (ro.map PermissionRecord.action)
  let st := classify_status al ar
  { ext_id_left := lo.map PermissionRecord.ext_id,
    name := match lo, ro with
      | some l, _ => l.name
      | none, some r => r.name
      | none, none => "",
    action_left := al,
    ext_id_right := ro.map PermissionRecord.ext_id,
    action_right := ar,
    status := st,
    action := if st == "Comuni" || st == "Unico a Destra" then "-" else "Aggiorna",
    delete := delete_option (ro.map PermissionRecord.ext_id) }

/-- The pure core of `compare_permissions` (ComparePermissions.py lines
112-157), acting on the two already-fetched snapshots. -/
def compare_snapshots (left right : List PermissionRecord) : List ComparisonRow :=
  (mergeOuter left right).map fun p => buildRow p.1 p.2

/-- `compare_permissions` (ComparePermissions.py lines 103-157): fetch the
two snapshots through the cache, then compare them. -/
def compare_permissions (st : SysState) (left_domains right_domains : List String) :
    List ComparisonRow × SysState × List Ev :=
  let fl := fetch_permissions st left_domains
  let fr := fetch_permissions fl.2.1 right_domains
  (compare_snapshots fl.1 fr.1, fr.2.1, fl.2.2 ++ fr.2.2)

/-- The join key of the change-detection merge (ComparePermissions.py
lines 319-323): every column except the editable ACTION_right. -/
def rowKey (r : ComparisonRow) :
    Option String × String × Option String × String × String × String × String :=
  (r.ext_id_left, r.name, r.ext_id_right, r.status, r.action, r.delete, r.action_left)

/-- The change detector (ComparePermissions.py lines 315-324): inner-join
the previously displayed grid with the edited grid on `rowKey` and keep
the pairs whose ACTION_right differs. -/
def detect_changes (old_data table_data : List ComparisonRow) :
    List (ComparisonRow × ComparisonRow) :=
  (old_data.flatMap fun o =>
    (table_data.filter fun n => rowKey n == rowKey o).map fun n => (o, n)).filter
    fun p => !(p.1.action_right == p.2.action_right)

/-- The destination-domain resolution of the bulk-save loop
(ComparePermissions.py lines 330-334): fall back to the selected target
domain when EXT_ID_right is falsy or a sentinel token. -/
def resolve_ext_id (ext_id_right : Option String) (fallback : String) : String :=
  match ext_id_right with
  | none => fallback
  | some e =>
    if e == "" then fallback
    else if sentinelToken e then fallback
    else e

/-- The per-row write loop of the bulk save (ComparePermissions.py lines
328-341): each iteration calls `update_or_insert_permission` with the
resolved destination, the row NAME and the edited ACTION_right. -/
def run_upserts (st : SysState) (fallback : String) :
    List (ComparisonRow × ComparisonRow) → SysState × List Ev
  | [] => (st, [])
  | p :: ps =>
    let dest := resolve_ext_id p.2.ext_id_right fallback
    let u := update_or_insert_permission st dest p.2.name p.2.action_right
    let rest := run_upserts u.1 fallback ps
    (rest.1, u.2.2 ++ rest.2)

/-- Case-insensitive substring test of the NAME filter
(`str.contains(filter_name, case=False)`). -/
def nameContains (hay needle : String) : Bool :=
  ((py_lower hay).splitOn (py_lower needle)).length ≥ 2

/-- Applies the presentation filter of the callback
(`comparison[comparison["NAME"].str.contains(...)]`, skipped for an empty
filter string as `if filter_name:` is false then). -/
def applyNameFilter (filter_name : String) (rows : List ComparisonRow) :
    List ComparisonRow :=
  if filter_name == "" then rows else rows.filter fun r => nameContains r.name filter_name

/-- The "Confronta" branch of `main_callback` (ComparePermissions.py lines
362-396).  `get_domains_options` runs first (lines 254-260 and 305), so the
trace always opens with the DOMAIN listing; the branch then validates the
two selections before any permission fetch.  Result: table data (`none`
models `dash.no_update`), new state, user message, event trace. -/
def main_callback_compare (st : SysState) (left_domains right_domains : List String)
    (filter_name : String) :
    Option (List ComparisonRow) × SysState × String × List Ev :=
  let ev0 := [Ev.fetchDomains]
  if left_domains.isEmpty || right_domains.isEmpty then
    (some [], st, "Seleziona i domini per il confronto.", ev0)
  else
    let c := compare_permissions st left_domains right_domains
    let filtered := applyNameFilter filter_name c.1
    if filtered.isEmpty then
      (some [], c.2.1, "Nessun dato disponibile per il confronto.", ev0 ++ c.2.2)
    else
      (some filtered, c.2.1, "Confronto completato.", ev0 ++ c.2.2)

/-- The grid-edit branch of `main_callback` (ComparePermissions.py lines
309-359): guard on missing data, detect the changed rows, write each of
them, then recompute the comparison.  When nothing changed, control falls
through to the final `return` with `dash.no_update` (modelled as `none`)
and no store write occurs. -/
def main_callback_save_edits (st : SysState) (left_domains right_domains : List String)
    (filter_name : String) (old_data table_data : List ComparisonRow) :
    Option (List ComparisonRow) × SysState × List Ev :=
  let ev0 := [Ev.fetchDomains]
  if table_data.isEmpty || old_data.isEmpty || right_domains.isEmpty then
    (none, st, ev0)
  else
    let mods := detect_changes old_data table_data
    if mods.isEmpty then (none, st, ev0)
    else
      let w := run_upserts st (right_domains.headD "") mods
      let c := compare_permissions w.1 left_domains right_domains
      (some (applyNameFilter filter_name c.1), c.2.1, ev0 ++ w.2 ++ c.2.2)

/-- The Action-column click branch of `main_callback` (ComparePermissions.py
lines 453-492): a row whose Action cell is "-" yields a no-op message;
otherwise `update_or_insert_permission(conn, ext_id=right_domains[0],
name=row_data["NAME"], action=row_data["ACTION_left"])` runs and the
comparison is recomputed. -/
def main_callback_row_action (st : SysState) (left_domains right_domains : List String)
    (filter_name : String) (row_data : ComparisonRow) :
    Option (List ComparisonRow) × SysState × String × List Ev :=
  let ev0 := [Ev.fetchDomains]
  if row_data.action == "-" then
    (none, st, "Nessuna azione disponibile per questo record.", ev0)
  else
    let u := update_or_insert_permission st (right_domains.headD "")
      row_data.name row_data.action_left
    let c := compare_permissions u.1 left_domains right_domains
    (some (applyNameFilter filter_name c.1), c.2.1, u.2.1, ev0 ++ u.2.2 ++ c.2.2)

/-- Recognizes a cache invalidation event. -/
def isClear : Ev → Bool
  | Ev.clearCache => true
  | _ => false

/-- Recognizes a store write event. -/
def isWrite : Ev → Bool
  | Ev.updateRow _ _ _ => true
  | Ev.insertRow _ _ _ => true
  | _ => false

/-- Recognizes an event that reaches the store (everything except the
in-process cache clear). -/
def isStoreCall : Ev → Bool
  | Ev.clearCache => false
  | _ => true

/-- Number of cache invalidations in a trace. -/
def countClear (t : List Ev) : Nat := (t.filter isClear).length

/-- Number of store writes in a trace. -/
def countWrite (t : List Ev) : Nat := (t.filter isWrite).length

/-- The (domain, name, action) arguments of a write event. -/
def evArgs : Ev → Option (String × String × String)
  | Ev.updateRow e n a => some (e, n, a)
  | Ev.insertRow e n a => some (e, n, a)
  | _ => none

theorem charListLe_total : ∀ a b : List Char, charListLe a b = true ∨ charListLe b a = true
  | [], _ => Or.inl rfl
  | _ :: _, [] => Or.inr rfl
  | c :: cs, d :: ds => by
    rcases lt_trichotomy c d with h | h | h
    · left; simp [charListLe, h]
    · subst h
      rcases charListLe_total cs ds with ih | ih
      · left; simp [charListLe, ih]
      · right; simp [charListLe, ih]
    · right; simp [charListLe, h, asymm h]

theorem charListLe_trans : ∀ a b c : List Char,
    charListLe a b = true → charListLe b c = true → charListLe a c = true
  | [], _, _, _, _ => rfl
  | _ :: _, [], _, h, _ => by simp [charListLe] at h
  | _ :: _, _ :: _, [], _, h => by simp [charListLe] at h
  | x :: xs, y :: ys, z :: zs, h1, h2 => by
    rcases lt_trichotomy x y with hxy | hxy | hxy
    · rcases lt_trichotomy y z with hyz | hyz | hyz
      · simp [charListLe, lt_trans hxy hyz]
      · subst hyz; simp [charListLe, hxy]
      · simp [charListLe, hyz, asymm hyz] at h2
    · subst hxy
      rcases lt_trichotomy x z with hxz | hxz | hxz
      · simp [charListLe, hxz]
      · subst hxz
        simp only [charListLe, if_neg (lt_irrefl x)] at h1 h2 ⊢
        exact charListLe_trans xs ys zs h1 h2
      · simp [charListLe, hxz, asymm hxz] at h2
    · simp [charListLe, hxy, asymm hxy] at h1

theorem charListLe_antisymm : ∀ a b : List Char,
    charListLe a b = true → charListLe b a = true → a = b
  | [], [], _, _ => rfl
  | [], _ :: _, _, h => by simp [charListLe] at h
  | _ :: _, [], h, _ => by simp [charListLe] at h
  | x :: xs, y :: ys, h1, h2 => by
    rcases lt_trichotomy x y with h | h | h
    · simp [charListLe, h, asymm h] at h2
    · subst h
      simp only [charListLe, if_neg (lt_irrefl x)] at h1 h2
      rw [charListLe_antisymm xs ys h1 h2]
    · simp [charListLe, h, asymm h] at h1

theorem buildRow_status (lo ro : Option PermissionRecord) :
    (buildRow lo ro).status =
      classify_status (buildRow lo ro).action_left (buildRow lo ro).action_right := rfl

theorem buildRow_action (lo ro : Option PermissionRecord) :
    (buildRow lo ro).action =
      (if (buildRow lo ro).status == "Comuni" || (buildRow lo ro).status == "Unico a Destra"
       then "-" else "Aggiorna") := rfl

theorem buildRow_delete (lo ro : Option PermissionRecord) :
    (buildRow lo ro).delete = delete_option (buildRow lo ro).ext_id_right := rfl

theorem mem_compare_snapshots {L R : List PermissionRecord} {row : ComparisonRow} :
    row ∈ compare_snapshots L R ↔ ∃ p ∈ mergeOuter L R, buildRow p.1 p.2 = row := by
  simp [compare_snapshots, List.mem_map]

theorem mergeOuter_cases {L R : List PermissionRecord}
    {p : Option PermissionRecord × Option PermissionRecord} (hp : p ∈ mergeOuter L R) :
    (∃ l ∈ L, ∃ r ∈ R, r.name = l.name ∧ p = (some l, some r)) ∨
    (∃ l ∈ L, (∀ r ∈ R, r.name ≠ l.name) ∧ p = (some l, none)) ∨
    (∃ r ∈ R, (∀ l ∈ L, l.name ≠ r.name) ∧ p = (none, some r)) := by
  unfold mergeOuter at hp
  rcases List.mem_append.1 hp with h | h
  · rcases List.mem_flatMap.1 h with ⟨l, hl, hin⟩
    by_cases he : (R.filter fun r => r.name == l.name).isEmpty
    · rw [if_pos he] at hin
      refine Or.inr (Or.inl ⟨l, hl, ?_, List.mem_singleton.1 hin⟩)
      intro r hr hname
      have hm : r ∈ R.filter fun r => r.name == l.name :=
        List.mem_filter.2 ⟨hr, by simp [hname]⟩
      rw [List.isEmpty_iff] at he
      rw [he] at hm
      exact absurd hm (List.not_mem_nil r)
    · rw [if_neg he] at hin
      rcases List.mem_map.1 hin with ⟨r, hrf, hpr⟩
      have hm := List.mem_filter.1 hrf
      exact Or.inl ⟨l, hl, r, hm.1, by simpa using hm.2, hpr.symm⟩
  · rcases List.mem_map.1 h with ⟨r, hrf, hpr⟩
    have hm := List.mem_filter.1 hrf
    refine Or.inr (Or.inr ⟨r, hm.1, ?_, hpr.symm⟩)
    intro l hl
    have := List.all_eq_true.1 hm.2 l hl
    simpa using this

theorem pair_mem_mergeOuter {L R : List PermissionRecord} {l r : PermissionRecord}
    (hl : l ∈ L) (hr : r ∈ R) (hname : r.name = l.name) :
    (some l, some r) ∈ mergeOuter L R := by
  unfold mergeOuter
  refine List.mem_append.2 (Or.inl (List.mem_flatMap.2 ⟨l, hl, ?_⟩))
  have hrf : r ∈ R.filter fun x => x.name == l.name :=
    List.mem_filter.2 ⟨hr, by simp [hname]⟩
  have hne : (R.filter fun x => x.name == l.name).isEmpty = false := by
    rw [List.isEmpty_eq_false]
    exact List.ne_nil_of_mem hrf
  rw [if_neg (by simp [hne])]
  exact List.mem_map.2 ⟨r, hrf, rfl⟩

theorem left_only_mem_mergeOuter {L R : List PermissionRecord} {l : PermissionRecord}
    (hl : l ∈ L) (hnone : ∀ r ∈ R, r.name ≠ l.name) :
    (some l, none) ∈ mergeOuter L R := by
  unfold mergeOuter
  refine List.mem_append.2 (Or.inl (List.mem_flatMap.2 ⟨l, hl, ?_⟩))
  have hfil : R.filter (fun x => x.name == l.name) = [] := by
    rw [List.filter_eq_nil_iff]
    intro r hr
    simp [hnone r hr]
  rw [if_pos (by simp [hfil])]
  exact List.mem_singleton.2 rfl

theorem cacheKey_perm {l1 l2 : List String} (h : l1.Perm l2) : cacheKey l1 = cacheKey l2 := by
  haveI : IsTotal String (fun a b => strLe a b = true) :=
    ⟨fun a b => charListLe_total a.data b.data⟩
  haveI : IsTrans String (fun a b => strLe a b = true) :=
    ⟨fun a b c => charListLe_trans a.data b.data c.data⟩
  haveI : IsAntisymm String (fun a b => strLe a b = true) :=
    ⟨fun a b h1 h2 => by
      cases a; cases b
      exact congrArg String.mk (charListLe_antisymm _ _ h1 h2)⟩
  exact List.eq_of_perm_of_sorted
    (((List.perm_insertionSort _ l1).trans h).trans (List.perm_insertionSort _ l2).symm)
    (List.sorted_insertionSort _ l1) (List.sorted_insertionSort _ l2)

theorem fetch_permissions_hit {st : SysState} {d : List String}
    {snap : List PermissionRecord} (h : st.cache.lookup (cacheKey d) = some snap) :
    fetch_permissions st d = (snap, st, []) := by
  simp [fetch_permissions, h]

theorem fetch_permissions_db (st : SysState) (d : List String) :
    (fetch_permissions st d).2.1.db = st.db := by
  unfold fetch_permissions
  cases h : st.cache.lookup (cacheKey d) <;> simp [h]

theorem fetch_permissions_trace (st : SysState) (d : List String) :
    (fetch_permissions st d).2.2 = [] ∨ (fetch_permissions st d).2.2 = [Ev.queryPerms d] := by
  unfold fetch_permissions
  cases h : st.cache.lookup (cacheKey d) <;> simp [h]

theorem fetch_permissions_twice (st : SysState) (d : List String) :
    fetch_permissions (fetch_permissions st d).2.1 d =
      ((fetch_permissions st d).1, (fetch_permissions st d).2.1, []) := by
  unfold fetch_permissions
  cases h : st.cache.lookup (cacheKey d) with
  | some df => simp [h]
  | none => simp [h, List.lookup, beq_self_eq_true]

theorem countClear_append (a b : List Ev) :
    countClear (a ++ b) = countClear a + countClear b := by
  simp [countClear, List.filter_append]

theorem countWrite_append (a b : List Ev) :
    countWrite (a ++ b) = countWrite a + countWrite b := by
  simp [countWrite, List.filter_append]

theorem upsert_trace (st : SysState) (e n a : String) :
    countClear (update_or_insert_permission st e n a).2.2 = 1 ∧
    countWrite (update_or_insert_permission st e n a).2.2 = 1 ∧
    (update_or_insert_permission st e n a).2.2.filterMap evArgs = [(e, n, a)] := by
  by_cases h : st.db.any (upsertMatch e n) = true <;>
    simp [update_or_insert_permission, h, countClear, countWrite, isClear, isWrite,
      evArgs, List.filter, List.filterMap]

theorem compare_permissions_trace (st : SysState) (L R : List String) :
    countClear (compare_permissions st L R).2.2 = 0 ∧
    countWrite (compare_permissions st L R).2.2 = 0 ∧
    (compare_permissions st L R).2.2.filterMap evArgs = [] := by
  unfold compare_permissions
  rcases fetch_permissions_trace st L with h1 | h1 <;>
    rcases fetch_permissions_trace (fetch_permissions st L).2.1 R with h2 | h2 <;>
      simp [h1, h2, countClear, countWrite, isClear, isWrite, evArgs,
        List.filter_append, List.filter, List.filterMap]

theorem compare_permissions_db (st : SysState) (L R : List String) :
    (compare_permissions st L R).2.1.db = st.db := by
  unfold compare_permissions
  rw [fetch_permissions_db, fetch_permissions_db]

theorem run_upserts_counts :
    ∀ (mods : List (ComparisonRow × ComparisonRow)) (st : SysState) (fb : String),
      countClear (run_upserts st fb mods).2 = mods.length ∧
      countWrite (run_upserts st fb mods).2 = mods.length
  | [], _, _ => ⟨rfl, rfl⟩
  | p :: ps, st, fb => by
    have hu := upsert_trace st (resolve_ext_id p.2.ext_id_right fb) p.2.name p.2.action_right
    have ih := run_upserts_counts ps
      (update_or_insert_permission st (resolve_ext_id p.2.ext_id_right fb)
        p.2.name p.2.action_right).1 fb
    simp only [run_upserts, List.length_cons, countClear_append, countWrite_append,
      hu.1, hu.2.1, ih.1, ih.2]
    omega

theorem classify_status_total (al ar : String) :
    classify_status al ar = "Comuni" ∨ classify_status al ar = "Unico a Destra" ∨
    classify_status al ar = "Unico a Sinistra" ∨ classify_status al ar = "Differenti" := by
  unfold classify_status
  by_cases h1 : (al == ar) = true <;> by_cases h2 : (al == "-") = true <;>
    by_cases h3 : (ar == "-") = true <;> simp [h1, h2, h3]

theorem classify_status_spec (al ar : String) :
    (classify_status al ar = "Comuni" ↔ al = ar) ∧
    (classify_status al ar = "Unico a Destra" ↔ al ≠ ar ∧ al = "-") ∧
    (classify_status al ar = "Unico a Sinistra" ↔ al ≠ ar ∧ al ≠ "-" ∧ ar = "-") ∧
    (classify_status al ar = "Differenti" ↔ al ≠ ar ∧ al ≠ "-" ∧ ar ≠ "-") := by
  by_cases h1 : al = ar <;> by_cases h2 : al = "-" <;> by_cases h3 : ar = "-" <;>
    simp_all [classify_status]

/-- C2: every row produced by the comparator has exactly one of the four
statuses, and the status is determined from the sentinel-coerced action
pair exactly as the claim orders the tests: "Comuni" iff the actions are
equal, otherwise "Unico a Destra" iff the left action is the sentinel,
otherwise "Unico a Sinistra" iff the right action is the sentinel, and
"Differenti" exactly when both sides hold real, unequal actions. -/
theorem compare_status_classification (L R : List PermissionRecord)
    (row : ComparisonRow) (hrow : row ∈ compare_snapshots L R) :
    (row.status = "Comuni" ∨ row.status = "Unico a Destra" ∨
     row.status = "Unico a Sinistra" ∨ row.status = "Differenti") ∧
    (row.status = "Comuni" ↔ row.action_left = row.action_right) ∧
    (row.status = "Unico a Destra" ↔
      row.action_left ≠ row.action_right ∧ row.action_left = "-") ∧
    (row.status = "Unico a Sinistra" ↔
      row.action_left ≠ row.action_right ∧ row.action_left ≠ "-" ∧
        row.action_right = "-") ∧
    (row.status = "Differenti" ↔
      row.action_left ≠ row.action_right ∧ row.action_left ≠ "-" ∧
        row.action_right ≠ "-") := by
  rcases mem_compare_snapshots.1 hrow with ⟨p, hp, hb⟩
  have hs : row.status = classify_status row.action_left row.action_right := by
    rw [← hb]; exact buildRow_status p.1 p.2
  rw [hs]
  exact ⟨classify_status_total _ _, classify_status_spec _ _⟩

/-- Witness for C2 at the concrete row built from (D1, Read, r) against an
empty right snapshot. -/
theorem compare_status_classification_witness :
    (buildRow (some { ext_id := "D1", name := "Read", action := "r" }) none).status =
      "Unico a Sinistra" := by
  have h := compare_status_classification
    [{ ext_id := "D1", name := "Read", action := "r" }] []
    (buildRow (some { ext_id := "D1", name := "Read", action := "r" }) none)
    (by decide)
  exact h.2.2.2.1.2 ⟨by decide, by decide, by decide⟩

theorem upsertMatch_upsertSet (e n a : String) (r : StoreRecord) :
    upsertMatch e n (upsertSet e n a r) = upsertMatch e n r := by
  unfold upsertSet
  by_cases h : upsertMatch e n r = true
  · rw [if_pos h]; simp [upsertMatch]
  · rw [if_neg h]

theorem upsertSet_idem (e n a : String) (r : StoreRecord) :
    upsertSet e n a (upsertSet e n a r) = upsertSet e n a r := by
  by_cases h : upsertMatch e n r = true
  · have h1 : upsertSet e n a r = { r with action := a } := by
      unfold upsertSet; rw [if_pos h]
    have h2 : upsertMatch e n { r with action := a } = true := by
      simpa [upsertMatch] using h
    rw [h1]
    unfold upsertSet
    rw [if_pos h2]
  · have h1 : upsertSet e n a r = r := by
      unfold upsertSet; rw [if_neg h]
    rw [h1, h1]

/-- C8: upserting (domain, name, action) twice in succession leaves the
system in the same state as upserting once: the first call either inserts
the (domain, name) record or rewrites its action, so the second call finds
the record present and updates it to the value it already holds. -/
theorem upsert_idempotent (st : SysState) (e n a : String) :
    (update_or_insert_permission (update_or_insert_permission st e n a).1 e n a).1 =
      (update_or_insert_permission st e n a).1 := by
  by_cases h : st.db.any (upsertMatch e n) = true
  · have hmap : (st.db.map (upsertSet e n a)).any (upsertMatch e n) = true := by
      rw [List.any_map]
      have hcomp : (upsertMatch e n) ∘ (upsertSet e n a) = upsertMatch e n := by
        funext r; exact upsertMatch_upsertSet e n a r
      rw [hcomp]; exact h
    have hff : (upsertSet e n a) ∘ (upsertSet e n a) = upsertSet e n a := by
      funext r; exact upsertSet_idem e n a r
    simp [update_or_insert_permission, h, hmap, List.map_map, hff]
  · have hall : ∀ r ∈ st.db, upsertMatch e n r = false := by
      intro r hr
      by_contra hc
      exact h (List.any_eq_true.2 ⟨r, hr, by revert hc; cases upsertMatch e n r <;> simp⟩)
    have hrec : upsertMatch e n
        { ext_id := e, class_name := "ch.eri.core.security.TaskPermission",
          name := n, action := a } = true := by simp [upsertMatch]
    have hany2 : ((st.db ++ ([{ ext_id := e, class_name := "ch.eri.core.security.TaskPermission", name := n, action := a }] : List StoreRecord)).any (upsertMatch e n)) = true := by
      simp [List.any_append, hrec]
    have hmapdb : st.db.map (upsertSet e n a) = st.db := by
      have hcg := List.map_congr_left (l := st.db)
        (f := upsertSet e n a) (g := id) ?_
      · simpa using hcg
      · intro r hr
        simp [upsertSet, hall r hr]
    have hmaprec : upsertSet e n a
        { ext_id := e, class_name := "ch.eri.core.security.TaskPermission",
          name := n, action := a } =
        { ext_id := e, class_name := "ch.eri.core.security.TaskPermission",
          name := n, action := a } := by
      simp [upsertSet, hrec]
    simp [update_or_insert_permission, h, hany2, List.map_append, hmapdb, hmaprec]

/-- C10: a left record whose stored action is the sentinel "-" or the
string "nan", for a name absent from the right snapshot, produces a row
classified "Comuni" with no update offered (Action cell "-"), not
"Unico a Sinistra": after the nan coercion the stored action is
indistinguishable from the absence sentinel. -/
theorem sentinel_action_left_common (L R : List PermissionRecord)
    (l : PermissionRecord) (hl : l ∈ L) (ha : l.action = "-" ∨ l.action = "nan")
    (hnone : ∀ r ∈ R, r.name ≠ l.name) :
    buildRow (some l) none ∈ compare_snapshots L R ∧
    (buildRow (some l) none).status = "Comuni" ∧
    (buildRow (some l) none).action = "-" := by
  have hc : coerceNan (some l.action) = "-" := by
    rcases ha with h | h <;> simp [coerceNan, h]
  refine ⟨mem_compare_snapshots.2
    ⟨(some l, none), left_only_mem_mergeOuter hl hnone, rfl⟩, ?_, ?_⟩
  · show classify_status (coerceNan (some l.action)) (coerceNan none) = "Comuni"
    rw [hc]
    decide
  · show (if classify_status (coerceNan (some l.action)) (coerceNan none) == "Comuni" ||
          classify_status (coerceNan (some l.action)) (coerceNan none) == "Unico a Destra"
         then "-" else "Aggiorna") = "-"
    rw [hc]
    decide

/-- Witness for C10 at the left record (D1, P, "-") against an empty right
snapshot. -/
theorem sentinel_action_left_common_witness :
    buildRow (some { ext_id := "D1", name := "P", action := "-" }) none ∈
      compare_snapshots [{ ext_id := "D1", name := "P", action := "-" }] [] ∧
    (buildRow (some { ext_id := "D1", name := "P", action := "-" }) none).status = "Comuni" ∧
    (buildRow (some { ext_id := "D1", name := "P", action := "-" }) none).action = "-" :=
  sentinel_action_left_common _ _ _ (by decide) (Or.inl rfl) (by decide)

/-- C6 counterexample: the cache key keeps duplicates
(`tuple(sorted(domains))` performs no dedup), so the multiplicity variants
["A", "A"] and ["A"] do not share a cache entry: after a fetch of ["A"]
has populated the cache, a fetch of ["A", "A"] still queries the store. -/
theorem cache_key_multiplicity_cex :
    cacheKey ["A", "A"] ≠ cacheKey ["A"] ∧
    (fetch_permissions (fetch_permissions { db := [{ ext_id := "A", class_name := "c", name := "N", action := "r" }], cache := [] } ["A"]).2.1 ["A", "A"]).2.2 = [Ev.queryPerms ["A", "A"]] := by
  decide

/-- C6 amended: the cache key is the sorted tuple of the requested domain
ids with duplicates retained, so any two permutations of the same list
share a cache entry (multiplicity variants need not); and a fetch whose
key is present in the cache returns the cached snapshot unchanged with no
store access. -/
theorem cache_key_canonical_amended :
    (∀ l1 l2 : List String, l1.Perm l2 → cacheKey l1 = cacheKey l2) ∧
    (∀ (st : SysState) (d : List String) (snap : List PermissionRecord),
      st.cache.lookup (cacheKey d) = some snap →
      fetch_permissions st d = (snap, st, [])) :=
  ⟨fun _ _ h => cacheKey_perm h, fun _ _ _ h => fetch_permissions_hit h⟩

/-- Witness for C6 amended: ["B", "A"] and ["A", "B"] share a key, and a
fetch against a pre-populated one-entry cache is a pure cache hit. -/
theorem cache_key_canonical_amended_witness :
    cacheKey ["B", "A"] = cacheKey ["A", "B"] ∧
    fetch_permissions { db := [], cache := [(cacheKey ["A"], [])] } ["A"] = ([], { db := [], cache := [(cacheKey ["A"], [])] }, []) :=
  ⟨cache_key_canonical_amended.1 ["B", "A"] ["A", "B"] (by decide),
   cache_key_canonical_amended.2 _ ["A"] [] (by decide)⟩

/-- C9 counterexample: a comparison request with no left domain selected
is rejected with the validation message, but only after
`get_domains_options` has already queried the store for the domain list,
so a store call does precede the rejection. -/
theorem validation_store_call_cex :
    (main_callback_compare { db := [], cache := [] } [] ["D2"] "").2.2.2 = [Ev.fetchDomains] ∧
    isStoreCall Ev.fetchDomains = true := by decide

/-- C9 amended: a comparison request with no left or no right domain
selected is rejected with the validation message before any permission
fetch or store write: the state is unchanged and the only store access of
the request is the domain listing that repopulates the dropdowns. -/
theorem validation_amended (st : SysState) (L R : List String) (f : String)
    (h : L = [] ∨ R = []) :
    main_callback_compare st L R f =
      (some [], st, "Seleziona i domini per il confronto.", [Ev.fetchDomains]) := by
  rcases h with h | h <;> subst h <;> simp [main_callback_compare]

/-- Witness for C9 amended at an empty left selection. -/
theorem validation_amended_witness :
    main_callback_compare { db := [], cache := [] } [] ["D2"] "" =
      (some [], { db := [], cache := [] }, "Seleziona i domini per il confronto.", [Ev.fetchDomains]) :=
  validation_amended _ [] ["D2"] "" (Or.inl rfl)

/-- C4 counterexample: an updatable "Differenti" row whose EXT_ID_right is
the real, non-sentinel domain "D9", applied with fallback target "D2":
the code writes to "D2" (always `right_domains[0]`), not to the row's own
domain_right "D9", contradicting the claimed destination resolution. -/
theorem row_action_ignores_domain_right_cex :
    sentinelToken "D9" = false ∧
    ((main_callback_row_action { db := [], cache := [] } ["D1"] ["D2"] "" { ext_id_left := some "D1", name := "Read", action_left := "r", ext_id_right := some "D9", action_right := "w", status := "Differenti", action := "Aggiorna", delete := "Elimina" }).2.2.2).filter isWrite = [Ev.insertRow "D2" "Read" "r"] := by
  decide

/-- C4 amended: for a row whose Action cell allows an update, the Action
click always writes through the upsert with destination `right_domains[0]`
(the fallback target domain), the row's name and the row's ACTION_left;
the row's own domain_right is never consulted.  A row whose Action cell is
"-" yields the no-op message and no write. -/
theorem row_action_fallback_amended (st : SysState) (L R : List String)
    (f : String) (rd : ComparisonRow) :
    (rd.action = "-" →
      main_callback_row_action st L R f rd =
        (none, st, "Nessuna azione disponibile per questo record.", [Ev.fetchDomains])) ∧
    (rd.action ≠ "-" →
      ((main_callback_row_action st L R f rd).2.2.2).filterMap evArgs =
        [(R.headD "", rd.name, rd.action_left)] ∧
      (main_callback_row_action st L R f rd).2.1.db =
        (update_or_insert_permission st (R.headD "") rd.name rd.action_left).1.db) := by
  constructor
  · intro h
    simp [main_callback_row_action, h]
  · intro h
    have hb : (rd.action == "-") = false := by
      simp [h]
    constructor
    · simp only [main_callback_row_action, hb, Bool.false_eq_true, if_false]
      rw [List.filterMap_append, List.filterMap_append]
      have hu := (upsert_trace st (R.headD "") rd.name rd.action_left).2.2
      have hc := (compare_permissions_trace
        (update_or_insert_permission st (R.headD "") rd.name rd.action_left).1 L R).2.2
      simp only [List.headD_eq_head?_getD] at hu hc
      simp [hu, hc, evArgs]
    · simp only [main_callback_row_action, hb, Bool.false_eq_true, if_false]
      rw [compare_permissions_db]

/-- Witness for C4 amended at a concrete updatable row with fallback "D2". -/
theorem row_action_fallback_amended_witness :
    ((main_callback_row_action { db := [], cache := [] } ["D1"] ["D2"] "" { ext_id_left := some "D1", name := "P", action_left := "r", ext_id_right := none, action_right := "-", status := "Unico a Sinistra", action := "Aggiorna", delete := "-" }).2.2.2).filterMap evArgs = [("D2", "P", "r")] :=
  ((row_action_fallback_amended _ ["D1"] ["D2"] "" _).2 (by decide)).1

theorem save_edits_run (st : SysState) (L R : List String) (f : String)
    (old_data table_data : List ComparisonRow)
    (g1 : table_data.isEmpty = false) (g2 : old_data.isEmpty = false)
    (g3 : R.isEmpty = false)
    (g4 : (detect_changes old_data table_data).isEmpty = false) :
    main_callback_save_edits st L R f old_data table_data =
      (some (applyNameFilter f (compare_permissions (run_upserts st (R.headD "") (detect_changes old_data table_data)).1 L R).1),
       (compare_permissions (run_upserts st (R.headD "") (detect_changes old_data table_data)).1 L R).2.1,
       [Ev.fetchDomains] ++ (run_upserts st (R.headD "") (detect_changes old_data table_data)).2 ++ (compare_permissions (run_upserts st (R.headD "") (detect_changes old_data table_data)).1 L R).2.2) := by
  simp [main_callback_save_edits, g1, g2, g3, g4]

/-- C5 counterexample: a bulk save whose change detector finds two edited
rows clears the snapshot cache twice — once inside each upsert — not
exactly once after the loop. -/
theorem bulk_invalidation_twice_cex :
    (detect_changes [{ ext_id_left := some "D1", name := "N1", action_left := "r", ext_id_right := some "D2", action_right := "x", status := "Differenti", action := "Aggiorna", delete := "Elimina" }, { ext_id_left := some "D1", name := "N2", action_left := "r", ext_id_right := some "D2", action_right := "x", status := "Differenti", action := "Aggiorna", delete := "Elimina" }] [{ ext_id_left := some "D1", name := "N1", action_left := "r", ext_id_right := some "D2", action_right := "u", status := "Differenti", action := "Aggiorna", delete := "Elimina" }, { ext_id_left := some "D1", name := "N2", action_left := "r", ext_id_right := some "D2", action_right := "v", status := "Differenti", action := "Aggiorna", delete := "Elimina" }]).length = 2 ∧
    countClear (main_callback_save_edits { db := [], cache := [] } ["D1"] ["D2"] "" [{ ext_id_left := some "D1", name := "N1", action_left := "r", ext_id_right := some "D2", action_right := "x", status := "Differenti", action := "Aggiorna", delete := "Elimina" }, { ext_id_left := some "D1", name := "N2", action_left := "r", ext_id_right := some "D2", action_right := "x", status := "Differenti", action := "Aggiorna", delete := "Elimina" }] [{ ext_id_left := some "D1", name := "N1", action_left := "r", ext_id_right := some "D2", action_right := "u", status := "Differenti", action := "Aggiorna", delete := "Elimina" }, { ext_id_left := some "D1", name := "N2", action_left := "r", ext_id_right := some "D2", action_right := "v", status := "Differenti", action := "Aggiorna", delete := "Elimina" }]).2.2 = 2 ∧
    (2 : Nat) ≠ 1 := by decide

/-- C5 amended: during a bulk save over a non-empty list of detected
changes the cache is invalidated once per written row — n clears and n
writes for n detected changes — because each upsert clears the whole
cache itself; no separate clear runs after the loop. -/
theorem bulk_invalidation_per_row_amended (st : SysState) (L R : List String)
    (f : String) (old_data table_data : List ComparisonRow)
    (h1 : table_data ≠ []) (h2 : old_data ≠ []) (h3 : R ≠ [])
    (h4 : detect_changes old_data table_data ≠ []) :
    countClear (main_callback_save_edits st L R f old_data table_data).2.2 =
      (detect_changes old_data table_data).length ∧
    countWrite (main_callback_save_edits st L R f old_data table_data).2.2 =
      (detect_changes old_data table_data).length := by
  have g1 : table_data.isEmpty = false := List.isEmpty_eq_false.2 h1
  have g2 : old_data.isEmpty = false := List.isEmpty_eq_false.2 h2
  have g3 : R.isEmpty = false := List.isEmpty_eq_false.2 h3
  have g4 : (detect_changes old_data table_data).isEmpty = false :=
    List.isEmpty_eq_false.2 h4
  rw [save_edits_run st L R f old_data table_data g1 g2 g3 g4]
  have hw := run_upserts_counts (detect_changes old_data table_data) st (R.headD "")
  have hcp := compare_permissions_trace
    (run_upserts st (R.headD "") (detect_changes old_data table_data)).1 L R
  constructor
  · show countClear ([Ev.fetchDomains] ++ (run_upserts st (R.headD "") (detect_changes old_data table_data)).2 ++ (compare_permissions (run_upserts st (R.headD "") (detect_changes old_data table_data)).1 L R).2.2) = (detect_changes old_data table_data).length
    rw [countClear_append, countClear_append, hw.1, hcp.1]
    simp [countClear, isClear]
  · show countWrite ([Ev.fetchDomains] ++ (run_upserts st (R.headD "") (detect_changes old_data table_data)).2 ++ (compare_permissions (run_upserts st (R.headD "") (detect_changes old_data table_data)).1 L R).2.2) = (detect_changes old_data table_data).length
    rw [countWrite_append, countWrite_append, hw.2, hcp.2.1]
    simp [countWrite, isWrite]

/-- Witness for C5 amended at a single edited row over an empty store. -/
theorem bulk_invalidation_per_row_amended_witness :
    countClear (main_callback_save_edits { db := [], cache := [] } ["D1"] ["D2"] "" [{ ext_id_left := some "D1", name := "N1", action_left := "r", ext_id_right := some "D2", action_right := "x", status := "Differenti", action := "Aggiorna", delete := "Elimina" }] [{ ext_id_left := some "D1", name := "N1", action_left := "r", ext_id_right := some "D2", action_right := "u", status := "Differenti", action := "Aggiorna", delete := "Elimina" }]).2.2 = (detect_changes [{ ext_id_left := some "D1", name := "N1", action_left := "r", ext_id_right := some "D2", action_right := "x", status := "Differenti", action := "Aggiorna", delete := "Elimina" }] [{ ext_id_left := some "D1", name := "N1", action_left := "r", ext_id_right := some "D2", action_right := "u", status := "Differenti", action := "Aggiorna", delete := "Elimina" }]).length :=
  (bulk_invalidation_per_row_amended { db := [], cache := [] } ["D1"] ["D2"] ""
    _ _ (by decide) (by decide) (by decide) (by decide)).1

/-- C7 counterexample: a baseline holding two rows that agree on every
join-key column but differ in ACTION_right self-diffs to a non-empty
change list — the merge cross-matches the duplicate keys. -/
theorem detect_changes_self_dup_cex :
    detect_changes [{ ext_id_left := some "D1", name := "N", action_left := "r", ext_id_right := some "D2", action_right := "x", status := "Differenti", action := "Aggiorna", delete := "Elimina" }, { ext_id_left := some "D1", name := "N", action_left := "r", ext_id_right := some "D2", action_right := "y", status := "Differenti", action := "Aggiorna", delete := "Elimina" }] [{ ext_id_left := some "D1", name := "N", action_left := "r", ext_id_right := some "D2", action_right := "x", status := "Differenti", action := "Aggiorna", delete := "Elimina" }, { ext_id_left := some "D1", name := "N", action_left := "r", ext_id_right := some "D2", action_right := "y", status := "Differenti", action := "Aggiorna", delete := "Elimina" }] ≠ [] := by
  decide

/-- C7 amended: a baseline whose ACTION_right is a function of the join
key (in particular any baseline without duplicated join keys) self-diffs
to the empty change list; and whenever the change detector returns the
empty list the edit branch performs no store write and no cache
invalidation — the state is returned unchanged and the only store access
is the domain listing. -/
theorem detect_changes_amended :
    (∀ b : List ComparisonRow,
      (∀ r1 ∈ b, ∀ r2 ∈ b, rowKey r1 = rowKey r2 → r1.action_right = r2.action_right) →
      detect_changes b b = []) ∧
    (∀ (st : SysState) (L R : List String) (f : String)
        (old_data table_data : List ComparisonRow),
      detect_changes old_data table_data = [] →
      main_callback_save_edits st L R f old_data table_data =
        (none, st, [Ev.fetchDomains])) := by
  constructor
  · intro b hb
    unfold detect_changes
    rw [List.filter_eq_nil_iff]
    intro p hp
    rcases List.mem_flatMap.1 hp with ⟨o, ho, hpo⟩
    rcases List.mem_map.1 hpo with ⟨n, hnf, hpn⟩
    have hn := List.mem_filter.1 hnf
    have hk : rowKey n = rowKey o := by simpa using hn.2
    have har := hb o ho n hn.1 hk.symm
    simp [← hpn, har]
  · intro st L R f old_data table_data h
    by_cases g : (table_data.isEmpty || old_data.isEmpty || R.isEmpty) = true
    · simp [main_callback_save_edits, g]
    · simp [main_callback_save_edits, g, h]

/-- Witness for C7 amended: a one-row baseline self-diffs to nothing, and
an empty change set leaves the state untouched. -/
theorem detect_changes_amended_witness :
    detect_changes [{ ext_id_left := some "D1", name := "N", action_left := "r", ext_id_right := some "D2", action_right := "x", status := "Differenti", action := "Aggiorna", delete := "Elimina" }] [{ ext_id_left := some "D1", name := "N", action_left := "r", ext_id_right := some "D2", action_right := "x", status := "Differenti", action := "Aggiorna", delete := "Elimina" }] = [] ∧
    main_callback_save_edits { db := [], cache := [] } ["D1"] ["D2"] "" [] [] =
      (none, { db := [], cache := [] }, [Ev.fetchDomains]) :=
  ⟨detect_changes_amended.1 _ (by
      intro r1 h1 r2 h2 hk
      rw [List.mem_singleton] at h1 h2
      rw [h1, h2]),
   detect_changes_amended.2 { db := [], cache := [] } ["D1"] ["D2"] "" [] [] (by decide)⟩

theorem delete_option_eq_elimina (e : String) :
    delete_option (some e) = "Elimina" ↔ sentinelToken e = false := by
  by_cases h0 : (e == "") = true
  · have he : e = "" := by simpa using h0
    subst he
    decide
  · show (if e == "" then "-" else if sentinelToken e then "-" else "Elimina") = "Elimina" ↔
      sentinelToken e = false
    rw [if_neg h0]
    by_cases h1 : sentinelToken e = true
    · simp [h1]
    · simp [h1]

theorem classify_status_self (x : String) : classify_status x x = "Comuni" := by
  simp [classify_status]

/-- C3 counterexample: a right record whose stored action is literally "-"
yields a row with allowed_delete set (Delete cell "Elimina") although its
action_right is the sentinel "-", so allowed_delete is not equivalent to
carrying a real (non-sentinel) domain_right/action_right pair. -/
theorem delete_flag_sentinel_action_cex :
    compare_snapshots [] [{ ext_id := "D2", name := "Read", action := "-" }] =
      [{ ext_id_left := none, name := "Read", action_left := "-", ext_id_right := some "D2", action_right := "-", status := "Comuni", action := "-", delete := "Elimina" }] := by
  decide

/-- C3 amended: a comparison row has allowed_delete (Delete cell
"Elimina") exactly when there is a right-side record behind it whose
domain id is a real, non-sentinel token — the row's action_right plays no
role in the flag; and the claim's concrete scenario holds: left
(D1, Read, r) against right (D2, Read, w) gives the single row
"Differenti" with allowed_update and allowed_delete both set. -/
theorem delete_flag_amended :
    (∀ (L R : List PermissionRecord) (row : ComparisonRow),
      row ∈ compare_snapshots L R →
      (row.delete = "Elimina" ↔
        ∃ r ∈ R, row.ext_id_right = some r.ext_id ∧ sentinelToken r.ext_id = false)) ∧
    compare_snapshots [{ ext_id := "D1", name := "Read", action := "r" }] [{ ext_id := "D2", name := "Read", action := "w" }] =
      [{ ext_id_left := some "D1", name := "Read", action_left := "r", ext_id_right := some "D2", action_right := "w", status := "Differenti", action := "Aggiorna", delete := "Elimina" }] := by
  constructor
  · intro L R row hrow
    rcases mem_compare_snapshots.1 hrow with ⟨p, hp, hb⟩
    rcases mergeOuter_cases hp with ⟨l, hl, r, hr, hname, hpe⟩ | ⟨l, hl, hnone, hpe⟩ |
      ⟨r, hr, hnone, hpe⟩
    · subst hpe
      subst hb
      constructor
      · intro hdel
        exact ⟨r, hr, rfl, (delete_option_eq_elimina r.ext_id).1 hdel⟩
      · rintro ⟨r2, hr2, heq, hsent⟩
        have hre : r.ext_id = r2.ext_id := by simpa [buildRow] using heq
        show delete_option (some r.ext_id) = "Elimina"
        rw [delete_option_eq_elimina, hre]
        exact hsent
    · subst hpe
      subst hb
      constructor
      · intro hdel
        exact absurd (show ("-" : String) = "Elimina" from hdel) (by decide)
      · rintro ⟨r2, hr2, heq, hsent⟩
        exact Option.noConfusion (show (none : Option String) = some r2.ext_id from heq)
    · subst hpe
      subst hb
      constructor
      · intro hdel
        exact ⟨r, hr, rfl, (delete_option_eq_elimina r.ext_id).1 hdel⟩
      · rintro ⟨r2, hr2, heq, hsent⟩
        have hre : r.ext_id = r2.ext_id := by simpa [buildRow] using heq
        show delete_option (some r.ext_id) = "Elimina"
        rw [delete_option_eq_elimina, hre]
        exact hsent
  · decide

/-- Witness for C3 amended: a genuine right-only row carries the delete
flag. -/
theorem delete_flag_amended_witness :
    (buildRow none (some { ext_id := "D2", name := "Read", action := "w" })).delete =
      "Elimina" := by
  have h := delete_flag_amended.1 [] [{ ext_id := "D2", name := "Read", action := "w" }]
    (buildRow none (some { ext_id := "D2", name := "Read", action := "w" })) (by decide)
  exact h.2 ⟨{ ext_id := "D2", name := "Read", action := "w" }, by decide, rfl, by decide⟩

/-- C1 counterexample: a snapshot holding two records with the same name
under different domains but different actions self-compares to rows that
are not all "Comuni" — the outer join cross-matches the duplicated name. -/
theorem compare_self_not_all_common_cex :
    ((compare_snapshots [{ ext_id := "D1", name := "N", action := "r" }, { ext_id := "D2", name := "N", action := "w" }] [{ ext_id := "D1", name := "N", action := "r" }, { ext_id := "D2", name := "N", action := "w" }]).all fun row => row.status == "Comuni") = false := by
  decide

/-- C1 amended: self-comparison yields only "Comuni" rows provided any two
records of the snapshot sharing a name share an action (in particular when
names are unique); for every snapshot the produced rows cover exactly the
names occurring in it; and when the left and right domain lists literally
coincide the two fetched snapshots agree, so the comparison is a
self-comparison. -/
theorem compare_self_common_amended :
    (∀ S : List PermissionRecord,
      (∀ l1 ∈ S, ∀ l2 ∈ S, l1.name = l2.name → l1.action = l2.action) →
      ∀ row ∈ compare_snapshots S S, row.status = "Comuni") ∧
    (∀ (S : List PermissionRecord) (n : String),
      (∃ row ∈ compare_snapshots S S, row.name = n) ↔ ∃ l ∈ S, l.name = n) ∧
    (∀ (st : SysState) (d : List String),
      (compare_permissions st d d).1 =
        compare_snapshots (fetch_permissions st d).1 (fetch_permissions st d).1) := by
  refine ⟨?_, ?_, ?_⟩
  · intro S hS row hrow
    rcases mem_compare_snapshots.1 hrow with ⟨p, hp, hb⟩
    rcases mergeOuter_cases hp with ⟨l, hl, r, hr, hname, hpe⟩ | ⟨l, hl, hnone, hpe⟩ |
      ⟨r, hr, hnone, hpe⟩
    · subst hpe
      subst hb
      have ha : l.action = r.action := hS l hl r hr hname.symm
      show classify_status (coerceNan (some l.action)) (coerceNan (some r.action)) = "Comuni"
      rw [ha]
      exact classify_status_self _
    · exact absurd rfl (hnone l hl)
    · exact absurd rfl (hnone r hr)
  · intro S n
    constructor
    · rintro ⟨row, hrow, hn⟩
      rcases mem_compare_snapshots.1 hrow with ⟨p, hp, hb⟩
      rcases mergeOuter_cases hp with ⟨l, hl, r, hr, hname, hpe⟩ | ⟨l, hl, hnone, hpe⟩ |
        ⟨r, hr, hnone, hpe⟩
      · subst hpe
        subst hb
        exact ⟨l, hl, hn⟩
      · subst hpe
        subst hb
        exact ⟨l, hl, hn⟩
      · subst hpe
        subst hb
        exact ⟨r, hr, hn⟩
    · rintro ⟨l, hl, hn⟩
      exact ⟨buildRow (some l) (some l),
        mem_compare_snapshots.2 ⟨(some l, some l), pair_mem_mergeOuter hl hl rfl, rfl⟩, hn⟩
  · intro st d
    show compare_snapshots (fetch_permissions st d).1
        (fetch_permissions (fetch_permissions st d).2.1 d).1 =
      compare_snapshots (fetch_permissions st d).1 (fetch_permissions st d).1
    rw [fetch_permissions_twice]

/-- Witness for C1 amended at the one-record snapshot (D1, N, r). -/
theorem compare_self_common_amended_witness :
    (∀ row ∈ compare_snapshots [{ ext_id := "D1", name := "N", action := "r" }] [{ ext_id := "D1", name := "N", action := "r" }], row.status = "Comuni") ∧
    ((∃ row ∈ compare_snapshots [{ ext_id := "D1", name := "N", action := "r" }] [{ ext_id := "D1", name := "N", action := "r" }], row.name = "N") ↔ ∃ l ∈ ([{ ext_id := "D1", name := "N", action := "r" }] : List PermissionRecord), l.name = "N") :=
  ⟨compare_self_common_amended.1 _ (by
      intro l1 h1 l2 h2 hn
      rw [List.mem_singleton] at h1 h2
      rw [h1, h2]),
   compare_self_common_amended.2.1 _ "N"⟩
